import Mathlib

/-!
# Todo-list use case of go-skeleton

A shallow embedding of `internal/usecase/todo_list_usecase.go`.

The use case is stateful Go code: it calls a repository, reads the wall clock and writes
log lines.  Every method is embedded as a function on an explicit `World`: the state of the
outside world (database and clock, of an arbitrary type `σ`) together with the trace of the
calls the method has made so far.  The `context.Context` argument only carries cancellation,
which shows up as an error returned by the repository, so it is not threaded through.
-/

namespace GoSkeleton

/-- Instants of `time.Time`, counted in ticks from the zero instant: `0` is the zero value. -/
abbrev Time := Int

/-- Go `error` values as the use case builds and forwards them: `fmt.Errorf` with a constant
format, and `errors.Wrap` of github.com/pkg/errors around a cause. -/
inductive AppError where
  | Errorf (msg : String)
  | Wrap (cause : AppError) (msg : String)
  deriving DecidableEq, Repr

/-- The text of `err.Error()`: a wrapped error prints its message, a colon, and its cause. -/
def AppError.Error : AppError → String
  | .Errorf msg => msg
  | .Wrap cause msg => msg ++ ": " ++ cause.Error

/-- The root of an error chain, `errors.Cause(err)`. -/
def AppError.Cause : AppError → AppError
  | .Errorf msg => .Errorf msg
  | .Wrap cause _ => cause.Cause

namespace entity

/-- The request body `entity.TodoListReq`, with the fields the use case reads.  The type
declaration is outside the sources at hand; `DoingAt` is carried as text. -/
structure TodoListReq where
  ID : Int
  UserID : Int
  Title : String
  Description : String
  DoingAt : String
  deriving DecidableEq, Repr

/-- The response `entity.TodoListResponse`, with the fields the use case writes. -/
structure TodoListResponse where
  ID : Int
  Title : String
  Description : String
  DoingAt : String
  CreatedAt : Time
  deriving DecidableEq, Repr

/-- A value stored in `entity.CaptureFields` (a `map[string]interface{}`). -/
inductive CaptureValue where
  | int64 (v : Int)
  | payload (req : TodoListReq)
  deriving DecidableEq, Repr

/-- The log context `entity.CaptureFields`, as its key/value pairs in source order. -/
abbrev CaptureFields := List (String × CaptureValue)

end entity

namespace mentity

/-- The persisted row `mentity.TodoList`.  A composite literal that names only some fields
leaves the others at their zero value, which is `zero` below. -/
structure TodoList where
  ID : Int
  UserID : Int
  Title : String
  Description : String
  DoingAt : String
  CreatedAt : Time
  UpdatedAt : Time
  deriving DecidableEq, Repr

/-- The zero value of `mentity.TodoList`. -/
def TodoList.zero : TodoList :=
  { ID := 0, UserID := 0, Title := "", Description := "", DoingAt := "",
    CreatedAt := 0, UpdatedAt := 0 }

end mentity

namespace mysql

/-- A transaction handle `mysql.TrxObj`. -/
abbrev TrxObj := Nat

/-- The repository interface `mysql.TodoListRepository` (with the transaction support that
`DBTransaction` needs), acting on a world state `σ`.  An operation that returns
`(value, error)` in Go is an `Except`; `Create` receives a pointer to the row, so on success
it yields the row as the store left it behind that pointer. -/
structure TodoListRepository (σ : Type) where
  Begin : σ → TrxObj × σ
  Commit : TrxObj → σ → Option AppError × σ
  Rollback : TrxObj → σ → σ
  GetByUserID : Int → σ → Except AppError (List mentity.TodoList) × σ
  GetByID : Int → σ → Except AppError mentity.TodoList × σ
  Create : Option TrxObj → mentity.TodoList → Bool → σ → Except AppError mentity.TodoList × σ
  LockByID : TrxObj → Int → σ → Except AppError mentity.TodoList × σ
  Update : TrxObj → mentity.TodoList → mentity.TodoList → σ → Option AppError × σ
  DeleteByID : Option TrxObj → Int → σ → Option AppError × σ

end mysql

/-- One observable step of a use-case method: a repository call with its arguments, a
transaction boundary, or a `helper.LogError` call with its arguments. -/
inductive Event where
  | repoGetByUserID (userID : Int)
  | repoGetByID (id : Int)
  | repoCreate (trx : Option mysql.TrxObj) (payload : mentity.TodoList) (flag : Bool)
  | repoLockByID (trx : mysql.TrxObj) (id : Int)
  | repoUpdate (trx : mysql.TrxObj) (locked : mentity.TodoList) (patch : mentity.TodoList)
  | repoDeleteByID (trx : Option mysql.TrxObj) (id : Int)
  | trxBegin (trx : mysql.TrxObj)
  | trxCommit (trx : mysql.TrxObj)
  | trxRollback (trx : mysql.TrxObj)
  | logError (source : String) (funcName : String) (err : AppError)
      (fields : entity.CaptureFields) (extra : String)
  deriving DecidableEq, Repr

/-- The outside world and the trace of what has been done to it. -/
structure World (σ : Type) where
  store : σ
  trace : List Event

/-- Whether an event is a call of a repository operation or a transaction boundary. -/
def Event.isStorage : Event → Bool
  | .logError _ _ _ _ _ => false
  | _ => true

/-- Whether an event is a call of `todoListRepo.Update`. -/
def Event.isUpdate : Event → Bool
  | .repoUpdate _ _ _ => true
  | _ => false

/-- Whether an event is a `helper.LogError` call. -/
def Event.isLog : Event → Bool
  | .logError _ _ _ _ _ => true
  | _ => false

namespace helper

/-- The call `helper.LogError(source, funcName, err, fields, extra)`: a log line, recorded in
the trace. -/
def LogError {σ : Type} (source funcName : String) (err : AppError)
    (fields : entity.CaptureFields) (extra : String) (w : World σ) : World σ :=
  { w with trace := w.trace ++ [Event.logError source funcName err fields extra] }

end helper

namespace mysql

/-- Modelled from the spec: `mysql.DBTransaction`, the update transaction coordinator, whose
source is not at hand.  It opens a transaction, runs the callback inside it, rolls back and
hands the callback's error on unchanged when the callback fails, and commits otherwise,
surfacing the commit's own error. -/
def DBTransaction {σ : Type} (db : TodoListRepository σ)
    (txFunc : TrxObj → World σ → Option AppError × World σ) (w : World σ) :
    Option AppError × World σ :=
  let b := db.Begin w.store
  let r := txFunc b.1 { store := b.2, trace := w.trace ++ [Event.trxBegin b.1] }
  match r.1 with
  | some err =>
    (some err, { store := db.Rollback b.1 r.2.store,
                 trace := r.2.trace ++ [Event.trxRollback b.1] })
  | none =>
    let c := db.Commit b.1 r.2.store
    (c.1, { store := c.2, trace := r.2.trace ++ [Event.trxCommit b.1] })

end mysql

namespace usecase

/-- The use case `usecase.TodoList` with its repository, and the package-level collaborators
its methods reach for: `ValidateStruct`, the constant `apperr.INVALID_PAYLOAD_CODE` and the
clock behind `time.Now()`, all declared outside the sources at hand.  The field
`validatorUsecase` is not used by any method and is left out. -/
structure TodoList (σ : Type) where
  todoListRepo : mysql.TodoListRepository σ
  ValidateStruct : entity.TodoListReq → String
  INVALID_PAYLOAD_CODE : String
  timeNow : σ → Time

variable {σ : Type}

/-- The method `TodoList.GetByUserID`. -/
def TodoList.GetByUserID (t : TodoList σ) (userID : Int) (w : World σ) :
    (List entity.TodoListResponse × Option AppError) × World σ :=
  let funcName := "TodoListUsecase.GetByUserID"
  let captureFieldError : entity.CaptureFields := [("user_id", .int64 userID)]
  let r := t.todoListRepo.GetByUserID userID w.store
  let w1 : World σ := { store := r.2, trace := w.trace ++ [Event.repoGetByUserID userID] }
  match r.1 with
  | .error err =>
    (([], some err),
      helper.LogError "todoListRepo.GetByUserID" funcName err captureFieldError "" w1)
  | .ok result =>
    ((result.foldl (fun res v => res ++ [entity.TodoListResponse.mk v.ID v.Title v.Description
        v.DoingAt v.CreatedAt]) [], none), w1)

/-- The method `TodoList.GetByID`.  The response names `ID`, `Title` and `Description` only,
so `DoingAt` and `CreatedAt` stay at their zero value. -/
def TodoList.GetByID (t : TodoList σ) (todoListID : Int) (w : World σ) :
    (Option entity.TodoListResponse × Option AppError) × World σ :=
  let funcName := "TodoListUsecase.GetByID"
  let captureFieldError : entity.CaptureFields := [("user_id", .int64 todoListID)]
  let r := t.todoListRepo.GetByID todoListID w.store
  let w1 : World σ := { store := r.2, trace := w.trace ++ [Event.repoGetByID todoListID] }
  match r.1 with
  | .error err =>
    ((none, some err), helper.LogError "todoListRepo.GetByID" funcName err captureFieldError "" w1)
  | .ok data =>
    ((some { ID := data.ID, Title := data.Title, Description := data.Description,
             DoingAt := "", CreatedAt := 0 }, none), w1)

/-- The row that `TodoList.Create` builds from the request and hands to the store. -/
def TodoList.createPayload (t : TodoList σ) (todoListReq : entity.TodoListReq) (w : World σ) :
    mentity.TodoList :=
  { mentity.TodoList.zero with
    UserID := todoListReq.UserID, Title := todoListReq.Title,
    Description := todoListReq.Description, DoingAt := todoListReq.DoingAt,
    CreatedAt := t.timeNow w.store }

/-- The method `TodoList.Create`. -/
def TodoList.Create (t : TodoList σ) (todoListReq : entity.TodoListReq) (w : World σ) :
    (Option entity.TodoListResponse × Option AppError) × World σ :=
  let funcName := "TodoListUsecase.Create"
  let captureFieldError : entity.CaptureFields :=
    [("user_id", .int64 todoListReq.UserID), ("payload", .payload todoListReq)]
  if t.ValidateStruct todoListReq ≠ "" then
    ((none, some (AppError.Wrap (AppError.Errorf t.INVALID_PAYLOAD_CODE)
      (t.ValidateStruct todoListReq))), w)
  else
    let todoListPayload := t.createPayload todoListReq w
    let r := t.todoListRepo.Create none todoListPayload false w.store
    let w1 : World σ :=
      { store := r.2, trace := w.trace ++ [Event.repoCreate none todoListPayload false] }
    match r.1 with
    | .error err =>
      ((none, some err),
        helper.LogError "todoListRepo.Create" funcName err captureFieldError "" w1)
    | .ok stored =>
      ((some { ID := stored.ID, Title := stored.Title, Description := stored.Description,
               DoingAt := stored.DoingAt, CreatedAt := stored.CreatedAt }, none), w1)

/-- The patch that `TodoList.UpdateByID` builds from the request at the instant `now`. -/
def TodoList.updatePatch (todoListReq : entity.TodoListReq) (now : Time) : mentity.TodoList :=
  { mentity.TodoList.zero with
    Title := todoListReq.Title, Description := todoListReq.Description,
    DoingAt := todoListReq.DoingAt, UpdatedAt := now }

/-- The callback that `TodoList.UpdateByID` passes to `mysql.DBTransaction`. -/
def TodoList.UpdateByID_txFunc (t : TodoList σ) (todoListReq : entity.TodoListReq)
    (trx : mysql.TrxObj) (w : World σ) : Option AppError × World σ :=
  let funcName := "TodoListUsecase.UpdateByID"
  let todoListID := todoListReq.ID
  let captureFieldError : entity.CaptureFields :=
    [("user_id", .int64 todoListReq.UserID), ("payload", .payload todoListReq)]
  let l := t.todoListRepo.LockByID trx todoListID w.store
  let w1 : World σ := { store := l.2, trace := w.trace ++ [Event.repoLockByID trx todoListID] }
  match l.1 with
  | .error err =>
    (some err, helper.LogError "todoListRepo.LockByID" funcName err captureFieldError "" w1)
  | .ok lockedWallet =>
    let patch := TodoList.updatePatch todoListReq (t.timeNow w1.store)
    let u := t.todoListRepo.Update trx lockedWallet patch w1.store
    let w2 : World σ :=
      { store := u.2, trace := w1.trace ++ [Event.repoUpdate trx lockedWallet patch] }
    match u.1 with
    | some err =>
      (some err, helper.LogError "todoListRepo.Update" funcName err captureFieldError "" w2)
    | none => (none, w2)

/-- The method `TodoList.UpdateByID`. -/
def TodoList.UpdateByID (t : TodoList σ) (todoListReq : entity.TodoListReq) (w : World σ) :
    Option AppError × World σ :=
  let funcName := "TodoListUsecase.UpdateByID"
  let captureFieldError : entity.CaptureFields :=
    [("user_id", .int64 todoListReq.UserID), ("payload", .payload todoListReq)]
  let r := mysql.DBTransaction t.todoListRepo (t.UpdateByID_txFunc todoListReq) w
  match r.1 with
  | some err =>
    (some err,
      helper.LogError "todoListRepo.DBTransaction" funcName err captureFieldError "" r.2)
  | none => (none, r.2)

/-- The method `TodoList.DeleteByID`. -/
def TodoList.DeleteByID (t : TodoList σ) (todoListID : Int) (w : World σ) :
    Option AppError × World σ :=
  let funcName := "TodoListUsecase.DeleteByID"
  let captureFieldError : entity.CaptureFields := [("todo_list_id", .int64 todoListID)]
  let r := t.todoListRepo.DeleteByID none todoListID w.store
  let w1 : World σ := { store := r.2, trace := w.trace ++ [Event.repoDeleteByID none todoListID] }
  match r.1 with
  | some err =>
    (some err, helper.LogError "todoListRepo.DeleteByID" funcName err captureFieldError "" w1)
  | none => (none, w1)

/-- Modelled from the spec: `usecase.ValidateStruct`, whose source is not at hand, with the
two field rules the data model states (the owner is required, the title is non-empty),
checked in this order; the first failing field gives the message. -/
def ValidateStruct (req : entity.TodoListReq) : String :=
  if req.UserID = 0 then "user_id is required"
  else if req.Title = "" then "title is required"
  else ""

end usecase

namespace memstore

/-- Modelled from the spec: the error `NotFoundError` of the record store. -/
def NotFoundError : AppError := AppError.Errorf "NotFoundError"

/-- Modelled from the spec: the state of a record store kept in memory, standing in for the
MySQL repository, whose source is not at hand: the rows, the rows as they were when the open
transaction began (if one is open), the next id to hand out, and the wall clock. -/
structure MemStore where
  rows : List mentity.TodoList
  snapshot : Option (List mentity.TodoList)
  nextID : Int
  clock : Time
  deriving DecidableEq, Repr

/-- Modelled from the spec: point lookup, `Record | NotFoundError`. -/
def lookup (id : Int) (s : MemStore) : Except AppError mentity.TodoList :=
  match s.rows.find? (fun r => r.ID == id) with
  | some r => .ok r
  | none => .error NotFoundError

/-- Modelled from the spec: `Update` applies the patch fields (title, description, schedule,
updated_at) to the row identified by the locked record. -/
def applyPatch (locked patch : mentity.TodoList) (rows : List mentity.TodoList) :
    List mentity.TodoList :=
  rows.map (fun r =>
    if r.ID = locked.ID then
      { r with Title := patch.Title, Description := patch.Description,
               DoingAt := patch.DoingAt, UpdatedAt := patch.UpdatedAt }
    else r)

/-- Modelled from the spec: the record store of section 4.1 over `MemStore`.  `Create`
assigns the id; a transaction keeps the rows it started from and `Rollback` restores them;
every operation lets the clock advance by one tick. -/
def repo : mysql.TodoListRepository MemStore where
  Begin s := (1, { s with snapshot := some s.rows, clock := s.clock + 1 })
  Commit _ s := (none, { s with snapshot := none, clock := s.clock + 1 })
  Rollback _ s := { s with rows := s.snapshot.getD s.rows, snapshot := none,
                           clock := s.clock + 1 }
  GetByUserID userID s :=
    (.ok (s.rows.filter (fun r => r.UserID == userID)), { s with clock := s.clock + 1 })
  GetByID id s := (lookup id s, { s with clock := s.clock + 1 })
  Create _ payload _ s :=
    (.ok { payload with ID := s.nextID },
      { s with rows := s.rows ++ [{ payload with ID := s.nextID }], nextID := s.nextID + 1,
               clock := s.clock + 1 })
  LockByID _ id s := (lookup id s, { s with clock := s.clock + 1 })
  Update _ locked patch s :=
    (none, { s with rows := applyPatch locked patch s.rows, clock := s.clock + 1 })
  DeleteByID _ id s :=
    match lookup id s with
    | .ok _ => (none, { s with rows := s.rows.filter (fun r => r.ID != id),
                               clock := s.clock + 1 })
    | .error err => (some err, { s with clock := s.clock + 1 })

/-- The use case wired to the in-memory store, the modelled validator and the store's clock. -/
def todoList : usecase.TodoList MemStore where
  todoListRepo := repo
  ValidateStruct := usecase.ValidateStruct
  INVALID_PAYLOAD_CODE := "INVALID_PAYLOAD"
  timeNow s := s.clock

/-- A row owned by user 7, as the store holds it. -/
def row1 : mentity.TodoList :=
  { ID := 1, UserID := 7, Title := "Buy milk", Description := "", DoingAt := "",
    CreatedAt := 100, UpdatedAt := 100 }

/-- A store holding `row1` and a row of another owner, with no transaction open. -/
def store1 : MemStore :=
  { rows := [row1, { row1 with ID := 2, UserID := 8, Title := "Pay rent" }],
    snapshot := none, nextID := 3, clock := 200 }

/-- The world over `store1` in which nothing has been traced yet. -/
def world1 : World MemStore := { store := store1, trace := [] }

/-- A create request without an owner, which the modelled validator rejects. -/
def reqNoOwner : entity.TodoListReq :=
  { ID := 0, UserID := 0, Title := "Buy milk", Description := "", DoingAt := "" }

/-- The create request of the spec's example: owner 7, title "Buy milk". -/
def reqBuyMilk : entity.TodoListReq :=
  { ID := 0, UserID := 7, Title := "Buy milk", Description := "", DoingAt := "" }

/-- An update request for id 9, which the in-memory store does not hold. -/
def reqMissing : entity.TodoListReq :=
  { ID := 9, UserID := 7, Title := "Buy milk and eggs", Description := "", DoingAt := "" }

/-- An update request for id 1 with a new title, description and schedule. -/
def reqUpdate : entity.TodoListReq :=
  { ID := 1, UserID := 7, Title := "Buy milk and eggs", Description := "two litres",
    DoingAt := "2024-05-01" }

/-- An update request for id 1 with an empty title, which the modelled validator rejects. -/
def reqBlankTitle : entity.TodoListReq :=
  { ID := 1, UserID := 7, Title := "", Description := "", DoingAt := "" }

/-- A record store like `repo` whose title column holds eight characters: `Create` stores
the title cut to that width and writes the stored row back behind the pointer it was handed,
together with the id it assigned. -/
def truncatingRepo : mysql.TodoListRepository MemStore :=
  { repo with
    Create := fun _ payload _ s =>
      (.ok { payload with ID := s.nextID, Title := payload.Title.take 8 },
        { s with rows := s.rows ++ [{ payload with ID := s.nextID,
                                                   Title := payload.Title.take 8 }],
                 nextID := s.nextID + 1, clock := s.clock + 1 }) }

/-- The use case wired to `truncatingRepo`. -/
def truncatingTodoList : usecase.TodoList MemStore :=
  { todoList with todoListRepo := truncatingRepo }

/-- A create request of owner 7 whose title is longer than eight characters. -/
def reqLongTitle : entity.TodoListReq :=
  { ID := 0, UserID := 7, Title := "Buy milk and eggs", Description := "", DoingAt := "" }

end memstore

/-! ## Helper lemmas -/

namespace usecase

variable {σ : Type}

/-- The loop of `GetByUserID` that appends one response per row builds the list of the
responses of the rows, in order, behind whatever was accumulated before. -/
theorem foldl_append_response (L : List mentity.TodoList) (acc : List entity.TodoListResponse) :
    L.foldl (fun res v => res ++ [entity.TodoListResponse.mk v.ID v.Title v.Description
        v.DoingAt v.CreatedAt]) acc
      = acc ++ L.map (fun v => entity.TodoListResponse.mk v.ID v.Title v.Description
        v.DoingAt v.CreatedAt) := by
  induction L generalizing acc with
  | nil => simp
  | cons v L ih => simp [List.foldl_cons, ih]

/-- The callback of `UpdateByID` when the lock fails: the lock call, one log line, the error. -/
theorem txFunc_lock_error (t : TodoList σ) (req : entity.TodoListReq) (trx : mysql.TrxObj)
    (w : World σ) (e : AppError) (s1 : σ)
    (hl : t.todoListRepo.LockByID trx req.ID w.store = (.error e, s1)) :
    t.UpdateByID_txFunc req trx w =
      (some e, { store := s1,
                 trace := w.trace ++ [Event.repoLockByID trx req.ID,
                   Event.logError "todoListRepo.LockByID" "TodoListUsecase.UpdateByID" e
                     [("user_id", .int64 req.UserID), ("payload", .payload req)] ""] }) := by
  simp [TodoList.UpdateByID_txFunc, helper.LogError, hl]

/-- The callback of `UpdateByID` when the lock succeeds and the update fails. -/
theorem txFunc_update_error (t : TodoList σ) (req : entity.TodoListReq) (trx : mysql.TrxObj)
    (w : World σ) (locked : mentity.TodoList) (e : AppError) (s1 s2 : σ)
    (hl : t.todoListRepo.LockByID trx req.ID w.store = (.ok locked, s1))
    (hu : t.todoListRepo.Update trx locked (TodoList.updatePatch req (t.timeNow s1)) s1
      = (some e, s2)) :
    t.UpdateByID_txFunc req trx w =
      (some e, { store := s2,
                 trace := w.trace ++ [Event.repoLockByID trx req.ID,
                   Event.repoUpdate trx locked (TodoList.updatePatch req (t.timeNow s1)),
                   Event.logError "todoListRepo.Update" "TodoListUsecase.UpdateByID" e
                     [("user_id", .int64 req.UserID), ("payload", .payload req)] ""] }) := by
  simp [TodoList.UpdateByID_txFunc, helper.LogError, hl, hu]

/-- The callback of `UpdateByID` when the lock and the update both succeed. -/
theorem txFunc_ok (t : TodoList σ) (req : entity.TodoListReq) (trx : mysql.TrxObj)
    (w : World σ) (locked : mentity.TodoList) (s1 s2 : σ)
    (hl : t.todoListRepo.LockByID trx req.ID w.store = (.ok locked, s1))
    (hu : t.todoListRepo.Update trx locked (TodoList.updatePatch req (t.timeNow s1)) s1
      = (none, s2)) :
    t.UpdateByID_txFunc req trx w =
      (none, { store := s2,
               trace := w.trace ++ [Event.repoLockByID trx req.ID,
                 Event.repoUpdate trx locked (TodoList.updatePatch req (t.timeNow s1))] }) := by
  simp [TodoList.UpdateByID_txFunc, hl, hu]

/-- The whole of `UpdateByID` when the lock fails inside the transaction. -/
theorem updateByID_lock_error (t : TodoList σ) (req : entity.TodoListReq) (w : World σ)
    (e : AppError) (trx : mysql.TrxObj) (s0 s1 : σ)
    (hb : t.todoListRepo.Begin w.store = (trx, s0))
    (hl : t.todoListRepo.LockByID trx req.ID s0 = (.error e, s1)) :
    t.UpdateByID req w =
      (some e, { store := t.todoListRepo.Rollback trx s1,
                 trace := w.trace ++ [Event.trxBegin trx, Event.repoLockByID trx req.ID,
                   Event.logError "todoListRepo.LockByID" "TodoListUsecase.UpdateByID" e
                     [("user_id", .int64 req.UserID), ("payload", .payload req)] "",
                   Event.trxRollback trx,
                   Event.logError "todoListRepo.DBTransaction" "TodoListUsecase.UpdateByID" e
                     [("user_id", .int64 req.UserID), ("payload", .payload req)] ""] }) := by
  have h := txFunc_lock_error t req trx
    { store := s0, trace := w.trace ++ [Event.trxBegin trx] } e s1 hl
  simp [TodoList.UpdateByID, mysql.DBTransaction, helper.LogError, hb, h]

/-- The whole of `UpdateByID` when the lock succeeds and the update fails. -/
theorem updateByID_update_error (t : TodoList σ) (req : entity.TodoListReq) (w : World σ)
    (locked : mentity.TodoList) (e : AppError) (trx : mysql.TrxObj) (s0 s1 s2 : σ)
    (hb : t.todoListRepo.Begin w.store = (trx, s0))
    (hl : t.todoListRepo.LockByID trx req.ID s0 = (.ok locked, s1))
    (hu : t.todoListRepo.Update trx locked (TodoList.updatePatch req (t.timeNow s1)) s1
      = (some e, s2)) :
    t.UpdateByID req w =
      (some e, { store := t.todoListRepo.Rollback trx s2,
                 trace := w.trace ++ [Event.trxBegin trx, Event.repoLockByID trx req.ID,
                   Event.repoUpdate trx locked (TodoList.updatePatch req (t.timeNow s1)),
                   Event.logError "todoListRepo.Update" "TodoListUsecase.UpdateByID" e
                     [("user_id", .int64 req.UserID), ("payload", .payload req)] "",
                   Event.trxRollback trx,
                   Event.logError "todoListRepo.DBTransaction" "TodoListUsecase.UpdateByID" e
                     [("user_id", .int64 req.UserID), ("payload", .payload req)] ""] }) := by
  have h := txFunc_update_error t req trx
    { store := s0, trace := w.trace ++ [Event.trxBegin trx] } locked e s1 s2 hl hu
  simp [TodoList.UpdateByID, mysql.DBTransaction, helper.LogError, hb, h]

/-- The whole of `UpdateByID` when the lock and the update succeed: the commit decides. -/
theorem updateByID_ok (t : TodoList σ) (req : entity.TodoListReq) (w : World σ)
    (locked : mentity.TodoList) (trx : mysql.TrxObj) (s0 s1 s2 s3 : σ) (c : Option AppError)
    (hb : t.todoListRepo.Begin w.store = (trx, s0))
    (hl : t.todoListRepo.LockByID trx req.ID s0 = (.ok locked, s1))
    (hu : t.todoListRepo.Update trx locked (TodoList.updatePatch req (t.timeNow s1)) s1
      = (none, s2))
    (hc : t.todoListRepo.Commit trx s2 = (c, s3)) :
    t.UpdateByID req w =
      (c, { store := s3,
            trace := w.trace ++ [Event.trxBegin trx, Event.repoLockByID trx req.ID,
              Event.repoUpdate trx locked (TodoList.updatePatch req (t.timeNow s1)),
              Event.trxCommit trx] ++
              (match c with
               | some e =>
                 [Event.logError "todoListRepo.DBTransaction" "TodoListUsecase.UpdateByID" e
                   [("user_id", .int64 req.UserID), ("payload", .payload req)] ""]
               | none => []) }) := by
  have h := txFunc_ok t req trx
    { store := s0, trace := w.trace ++ [Event.trxBegin trx] } locked s1 s2 hl hu
  cases c <;>
    simp [TodoList.UpdateByID, mysql.DBTransaction, helper.LogError, hb, h, hc]

end usecase

/-! ## The claims -/

open usecase

variable {σ : Type}

/-- C1: when `ValidateStruct` returns a non-empty message `m` for a create request,
`TodoList.Create` returns a nil record with the error `Wrap(Errorf(INVALID_PAYLOAD_CODE), m)`,
whose cause is the invalid-payload code and whose text starts with `m`, and it leaves the
world as it found it: no repository operation (in particular no `todoListRepo.Create`) and
no other call is traced. -/
theorem C1_create_invalid_payload (t : TodoList σ) (req : entity.TodoListReq) (w : World σ)
    (m : String) (hm : t.ValidateStruct req = m) (hne : m ≠ "") :
    (t.Create req w).1 =
      (none, some (AppError.Wrap (AppError.Errorf t.INVALID_PAYLOAD_CODE) m)) ∧
    (AppError.Wrap (AppError.Errorf t.INVALID_PAYLOAD_CODE) m).Cause
      = AppError.Errorf t.INVALID_PAYLOAD_CODE ∧
    (AppError.Wrap (AppError.Errorf t.INVALID_PAYLOAD_CODE) m).Error
      = m ++ ": " ++ t.INVALID_PAYLOAD_CODE ∧
    (t.Create req w).2.store = w.store ∧
    (t.Create req w).2.trace = w.trace ∧
    (t.Create req w).2.trace.filter Event.isStorage = w.trace.filter Event.isStorage := by
  subst hm
  simp [TodoList.Create, hne, AppError.Cause, AppError.Error]

/-- C1 at a concrete input: a request without an owner over the in-memory store. -/
theorem C1_create_invalid_payload_witness :
    memstore.todoList.ValidateStruct memstore.reqNoOwner = "user_id is required" ∧
    (memstore.todoList.Create memstore.reqNoOwner memstore.world1).1 =
      (none, some (AppError.Wrap (AppError.Errorf "INVALID_PAYLOAD") "user_id is required")) ∧
    (memstore.todoList.Create memstore.reqNoOwner memstore.world1).2.trace = [] :=
  have h := C1_create_invalid_payload memstore.todoList memstore.reqNoOwner memstore.world1
    "user_id is required" (by decide) (by decide)
  ⟨by decide, h.1, h.2.2.2.2.1⟩

/-- C9: when `todoListRepo.GetByUserID` succeeds with the list `L`, `TodoList.GetByUserID`
returns a nil error and the list of the responses of the rows of `L`: it has the length of
`L`, its `i`-th element carries the `ID`, `Title`, `Description`, `DoingAt` and `CreatedAt`
of the `i`-th row of `L`, and it is empty when `L` is empty. -/
theorem C9_get_by_user_id_maps_rows (t : TodoList σ) (userID : Int) (w : World σ)
    (L : List mentity.TodoList) (s1 : σ)
    (h : t.todoListRepo.GetByUserID userID w.store = (.ok L, s1)) :
    (t.GetByUserID userID w).1.2 = none ∧
    (t.GetByUserID userID w).1.1.length = L.length ∧
    (∀ i : Nat, (t.GetByUserID userID w).1.1[i]? =
      (L[i]?).map (fun v => entity.TodoListResponse.mk v.ID v.Title v.Description
        v.DoingAt v.CreatedAt)) ∧
    (L = [] → (t.GetByUserID userID w).1 = ([], none)) := by
  have hres : (t.GetByUserID userID w).1 =
      (L.map (fun v => entity.TodoListResponse.mk v.ID v.Title v.Description
        v.DoingAt v.CreatedAt), none) := by
    simp [TodoList.GetByUserID, h, foldl_append_response]
  rw [hres]
  refine ⟨rfl, by simp, fun i => by simp, fun hL => by simp [hL]⟩

/-- C9 at a concrete input: the rows of owner 7 in the in-memory store. -/
theorem C9_get_by_user_id_maps_rows_witness :
    (memstore.todoList.GetByUserID 7 memstore.world1).1.2 = none ∧
    (memstore.todoList.GetByUserID 7 memstore.world1).1.1.length = 1 ∧
    (memstore.todoList.GetByUserID 7 memstore.world1).1.1[0]? =
      some { ID := 1, Title := "Buy milk", Description := "", DoingAt := "",
             CreatedAt := 100 } :=
  have h := C9_get_by_user_id_maps_rows memstore.todoList 7 memstore.world1 [memstore.row1]
    { memstore.store1 with clock := 201 } rfl
  ⟨h.1, h.2.1, h.2.2.1 0⟩

/-- C7: every operation hands the error of its repository call on exactly as it got it,
with a nil result, and returns a nil error when that call succeeds: `GetByUserID`,
`GetByID`, `Create` once validation has passed, `DeleteByID`, and `UpdateByID`, whose error
is whatever `DBTransaction` returned (an error or nil). -/
theorem C7_errors_pass_through (t : TodoList σ) (w : World σ) :
    (∀ userID e s1, t.todoListRepo.GetByUserID userID w.store = (.error e, s1) →
      (t.GetByUserID userID w).1 = ([], some e)) ∧
    (∀ userID L s1, t.todoListRepo.GetByUserID userID w.store = (.ok L, s1) →
      (t.GetByUserID userID w).1.2 = none) ∧
    (∀ id e s1, t.todoListRepo.GetByID id w.store = (.error e, s1) →
      (t.GetByID id w).1 = (none, some e)) ∧
    (∀ id data s1, t.todoListRepo.GetByID id w.store = (.ok data, s1) →
      (t.GetByID id w).1.2 = none) ∧
    (∀ req e s1, t.ValidateStruct req = "" →
      t.todoListRepo.Create none (t.createPayload req w) false w.store = (.error e, s1) →
      (t.Create req w).1 = (none, some e)) ∧
    (∀ req stored s1, t.ValidateStruct req = "" →
      t.todoListRepo.Create none (t.createPayload req w) false w.store = (.ok stored, s1) →
      (t.Create req w).1.2 = none) ∧
    (∀ req, (t.UpdateByID req w).1 =
      (mysql.DBTransaction t.todoListRepo (t.UpdateByID_txFunc req) w).1) ∧
    (∀ id, (t.DeleteByID id w).1 = (t.todoListRepo.DeleteByID none id w.store).1) := by
  refine ⟨?_, ?_, ?_, ?_, ?_, ?_, ?_, ?_⟩
  · intro userID e s1 h
    simp [TodoList.GetByUserID, h]
  · intro userID L s1 h
    simp [TodoList.GetByUserID, h]
  · intro id e s1 h
    simp [TodoList.GetByID, h]
  · intro id data s1 h
    simp [TodoList.GetByID, h]
  · intro req e s1 hv h
    simp [TodoList.Create, hv, h]
  · intro req stored s1 hv h
    simp [TodoList.Create, hv, h]
  · intro req
    cases h : (mysql.DBTransaction t.todoListRepo (t.UpdateByID_txFunc req) w).1 <;>
      simp [TodoList.UpdateByID, h]
  · intro id
    cases h : (t.todoListRepo.DeleteByID none id w.store).1 <;>
      simp [TodoList.DeleteByID, h]

/-- C7 at concrete inputs: reading, updating and deleting the missing id 9 in the in-memory
store each return the store's `NotFoundError` itself. -/
theorem C7_errors_pass_through_witness :
    (memstore.todoList.GetByID 9 memstore.world1).1 = (none, some memstore.NotFoundError) ∧
    (memstore.todoList.GetByID 1 memstore.world1).1.2 = none ∧
    (memstore.todoList.DeleteByID 9 memstore.world1).1 = some memstore.NotFoundError ∧
    (memstore.todoList.UpdateByID
      { ID := 9, UserID := 7, Title := "x", Description := "", DoingAt := "" }
      memstore.world1).1 = some memstore.NotFoundError :=
  have h := C7_errors_pass_through memstore.todoList memstore.world1
  ⟨h.2.2.1 9 memstore.NotFoundError { memstore.store1 with clock := 201 } rfl,
   h.2.2.2.1 1 memstore.row1 { memstore.store1 with clock := 201 } rfl,
   (h.2.2.2.2.2.2.2 9).trans (by decide),
   (h.2.2.2.2.2.2.1 _).trans (by decide)⟩

/-- C6, as stated, fails: over a store whose `Create` writes the stored (cut) title back
behind the pointer, a request that passes validation is handed to the store with the
request's title, the store call succeeds, and `Create` returns the store's title, not the
request's. -/
theorem C6_response_read_back_from_store :
    memstore.truncatingTodoList.ValidateStruct memstore.reqLongTitle = "" ∧
    (memstore.truncatingTodoList.Create memstore.reqLongTitle memstore.world1).2.trace =
      [Event.repoCreate none
        { ID := 0, UserID := 7, Title := "Buy milk and eggs", Description := "", DoingAt := "",
          CreatedAt := 200, UpdatedAt := 0 } false] ∧
    (memstore.truncatingTodoList.Create memstore.reqLongTitle memstore.world1).1 =
      (some { ID := 3, Title := "Buy milk", Description := "", DoingAt := "",
              CreatedAt := 200 }, none) ∧
    ¬ (∃ resp, (memstore.truncatingTodoList.Create memstore.reqLongTitle memstore.world1).1.1
        = some resp ∧ resp.Title = memstore.reqLongTitle.Title) := by
  refine ⟨by decide, by decide, by decide, ?_⟩
  rintro ⟨resp, h, ht⟩
  have h3 : (memstore.truncatingTodoList.Create memstore.reqLongTitle memstore.world1).1.1 =
      some { ID := 3, Title := "Buy milk", Description := "", DoingAt := "",
             CreatedAt := 200 } := by decide
  rw [h3] at h
  simp only [Option.some.injEq] at h
  subst h
  revert ht
  decide

/-- C6, amended: when validation passes and `todoListRepo.Create` succeeds, leaving the
record `stored` behind the pointer and the store in state `s1`, then the record handed to
the store carries the request's `UserID`, `Title`, `Description` and `DoingAt` and the
current time as `CreatedAt` (and nothing else), that store call is the only call made, the
store is left in `s1`, and `Create` returns a nil error and the record whose `ID`, `Title`,
`Description`, `DoingAt` and `CreatedAt` are those of `stored`: the id is the one the store
assigned, and the other four are the request's (and the `CreatedAt` given to the store)
whenever the store left them as handed. -/
theorem C6_create_success (t : TodoList σ) (req : entity.TodoListReq) (w : World σ)
    (stored : mentity.TodoList) (s1 : σ)
    (hv : t.ValidateStruct req = "")
    (hc : t.todoListRepo.Create none (t.createPayload req w) false w.store = (.ok stored, s1)) :
    t.createPayload req w =
      { ID := 0, UserID := req.UserID, Title := req.Title, Description := req.Description,
        DoingAt := req.DoingAt, CreatedAt := t.timeNow w.store, UpdatedAt := 0 } ∧
    (t.Create req w).2.trace = w.trace ++ [Event.repoCreate none (t.createPayload req w) false] ∧
    (t.Create req w).2.store = s1 ∧
    (t.Create req w).1 =
      (some { ID := stored.ID, Title := stored.Title, Description := stored.Description,
              DoingAt := stored.DoingAt, CreatedAt := stored.CreatedAt }, none) ∧
    (stored.Title = (t.createPayload req w).Title ∧
      stored.Description = (t.createPayload req w).Description ∧
      stored.DoingAt = (t.createPayload req w).DoingAt ∧
      stored.CreatedAt = (t.createPayload req w).CreatedAt →
      (t.Create req w).1 =
        (some { ID := stored.ID, Title := req.Title, Description := req.Description,
                DoingAt := req.DoingAt, CreatedAt := t.timeNow w.store }, none)) := by
  have hres : (t.Create req w).1 =
      (some { ID := stored.ID, Title := stored.Title, Description := stored.Description,
              DoingAt := stored.DoingAt, CreatedAt := stored.CreatedAt }, none) := by
    simp [TodoList.Create, hv, hc]
  refine ⟨rfl, ?_, ?_, hres, ?_⟩
  · simp [TodoList.Create, hv, hc]
  · simp [TodoList.Create, hv, hc]
  · rintro ⟨h1, h2, h3, h4⟩
    rw [hres, h1, h2, h3, h4]
    rfl

/-- C6 (amended) at concrete inputs: the example request over the in-memory store, which
assigns id 3 at time 200 and keeps the row, and the long title over the store that cuts it. -/
theorem C6_create_success_witness :
    (memstore.todoList.Create memstore.reqBuyMilk memstore.world1).1 =
      (some { ID := 3, Title := "Buy milk", Description := "", DoingAt := "",
              CreatedAt := 200 }, none) ∧
    (memstore.todoList.Create memstore.reqBuyMilk memstore.world1).2.store.rows =
      memstore.store1.rows ++ [mentity.TodoList.mk 3 7 "Buy milk" "" "" 200 0] ∧
    (memstore.truncatingTodoList.Create memstore.reqLongTitle memstore.world1).1 =
      (some { ID := 3, Title := "Buy milk", Description := "", DoingAt := "",
              CreatedAt := 200 }, none) :=
  have h := C6_create_success memstore.todoList memstore.reqBuyMilk memstore.world1
    { ID := 3, UserID := 7, Title := "Buy milk", Description := "", DoingAt := "",
      CreatedAt := 200, UpdatedAt := 0 }
    (memstore.repo.Create none
      (memstore.todoList.createPayload memstore.reqBuyMilk memstore.world1) false
      memstore.store1).2
    (by decide) rfl
  have h2 := C6_create_success memstore.truncatingTodoList memstore.reqLongTitle
    memstore.world1
    { ID := 3, UserID := 7, Title := "Buy milk", Description := "", DoingAt := "",
      CreatedAt := 200, UpdatedAt := 0 }
    (memstore.truncatingRepo.Create none
      (memstore.truncatingTodoList.createPayload memstore.reqLongTitle memstore.world1) false
      memstore.store1).2
    (by decide) rfl
  ⟨h.2.2.2.2 (by decide), by rw [h.2.2.1]; decide, h2.2.2.2.1⟩

/-- C3: when `todoListRepo.LockByID` fails with `e` inside the transaction, the callback
returns `e`, `UpdateByID` returns `e` itself (so `NotFoundError` when the store reports a
missing id), the calls made are exactly: begin, the lock, a log line, rollback, a log line,
so `todoListRepo.Update` is never called and nothing is committed, and the store is left in
the state the rollback of that transaction produces. -/
theorem C3_lock_failure_aborts (t : TodoList σ) (req : entity.TodoListReq) (w : World σ)
    (e : AppError) (trx : mysql.TrxObj) (s0 s1 : σ)
    (hb : t.todoListRepo.Begin w.store = (trx, s0))
    (hl : t.todoListRepo.LockByID trx req.ID s0 = (.error e, s1)) :
    (t.UpdateByID_txFunc req trx
      { store := s0, trace := w.trace ++ [Event.trxBegin trx] }).1 = some e ∧
    (t.UpdateByID req w).1 = some e ∧
    (t.UpdateByID req w).2.trace =
      w.trace ++ [Event.trxBegin trx, Event.repoLockByID trx req.ID,
        Event.logError "todoListRepo.LockByID" "TodoListUsecase.UpdateByID" e
          [("user_id", .int64 req.UserID), ("payload", .payload req)] "",
        Event.trxRollback trx,
        Event.logError "todoListRepo.DBTransaction" "TodoListUsecase.UpdateByID" e
          [("user_id", .int64 req.UserID), ("payload", .payload req)] ""] ∧
    (t.UpdateByID req w).2.trace.filter Event.isUpdate = w.trace.filter Event.isUpdate ∧
    (t.UpdateByID req w).2.trace.filter Event.isStorage =
      w.trace.filter Event.isStorage ++
        [Event.trxBegin trx, Event.repoLockByID trx req.ID, Event.trxRollback trx] ∧
    (t.UpdateByID req w).2.store = t.todoListRepo.Rollback trx s1 := by
  have hcb := txFunc_lock_error t req trx
    { store := s0, trace := w.trace ++ [Event.trxBegin trx] } e s1 hl
  have hup := updateByID_lock_error t req w e trx s0 s1 hb hl
  rw [hcb, hup]
  simp [Event.isUpdate, Event.isStorage]

/-- C3 at a concrete input: updating the missing id 9 in the in-memory store returns
`NotFoundError`, calls no `Update`, and leaves the rows as they were. -/
theorem C3_lock_failure_aborts_witness :
    (memstore.todoList.UpdateByID memstore.reqMissing memstore.world1).1
      = some memstore.NotFoundError ∧
    (memstore.todoList.UpdateByID memstore.reqMissing memstore.world1).2.trace.filter
      Event.isStorage = [Event.trxBegin 1, Event.repoLockByID 1 9, Event.trxRollback 1] ∧
    (memstore.todoList.UpdateByID memstore.reqMissing memstore.world1).2.store.rows
      = memstore.store1.rows :=
  have h := C3_lock_failure_aborts memstore.todoList memstore.reqMissing memstore.world1
    memstore.NotFoundError 1
    { memstore.store1 with snapshot := some memstore.store1.rows, clock := 201 }
    { memstore.store1 with snapshot := some memstore.store1.rows, clock := 202 }
    rfl rfl
  ⟨h.2.1, h.2.2.2.2.1, by rw [h.2.2.2.2.2]; decide⟩

/-- C4: when `LockByID` returns the record `locked` for `req.ID` inside the transaction,
`UpdateByID` calls `todoListRepo.Update` exactly once, on `locked`, with a patch whose
`Title`, `Description` and `DoingAt` are the request's (whatever they are), whose
`UpdatedAt` is the time read right after the lock, and whose `ID`, `UserID` and `CreatedAt`
are zero. -/
theorem C4_update_patch (t : TodoList σ) (req : entity.TodoListReq) (w : World σ)
    (locked : mentity.TodoList) (trx : mysql.TrxObj) (s0 s1 : σ)
    (hb : t.todoListRepo.Begin w.store = (trx, s0))
    (hl : t.todoListRepo.LockByID trx req.ID s0 = (.ok locked, s1)) :
    TodoList.updatePatch req (t.timeNow s1) =
      { ID := 0, UserID := 0, Title := req.Title, Description := req.Description,
        DoingAt := req.DoingAt, CreatedAt := 0, UpdatedAt := t.timeNow s1 } ∧
    (t.UpdateByID_txFunc req trx
        { store := s0, trace := w.trace ++ [Event.trxBegin trx] }).2.trace.filter Event.isStorage
      = w.trace.filter Event.isStorage ++ [Event.trxBegin trx, Event.repoLockByID trx req.ID,
          Event.repoUpdate trx locked (TodoList.updatePatch req (t.timeNow s1))] ∧
    (t.UpdateByID req w).2.trace.filter Event.isUpdate
      = w.trace.filter Event.isUpdate ++
          [Event.repoUpdate trx locked (TodoList.updatePatch req (t.timeNow s1))] ∧
    (t.UpdateByID req w).2.trace.filter Event.isStorage
      = w.trace.filter Event.isStorage ++ [Event.trxBegin trx, Event.repoLockByID trx req.ID,
          Event.repoUpdate trx locked (TodoList.updatePatch req (t.timeNow s1)),
          (match (t.todoListRepo.Update trx locked
              (TodoList.updatePatch req (t.timeNow s1)) s1).1 with
           | none => Event.trxCommit trx
           | some _ => Event.trxRollback trx)] := by
  refine ⟨rfl, ?_⟩
  rcases hu : t.todoListRepo.Update trx locked (TodoList.updatePatch req (t.timeNow s1)) s1
    with ⟨u, s2⟩
  cases u with
  | some e =>
    have hcb := txFunc_update_error t req trx
      { store := s0, trace := w.trace ++ [Event.trxBegin trx] } locked e s1 s2 hl hu
    have hup := updateByID_update_error t req w locked e trx s0 s1 s2 hb hl hu
    rw [hcb, hup]
    simp [Event.isUpdate, Event.isStorage]
  | none =>
    rcases hc : t.todoListRepo.Commit trx s2 with ⟨c, s3⟩
    have hcb := txFunc_ok t req trx
      { store := s0, trace := w.trace ++ [Event.trxBegin trx] } locked s1 s2 hl hu
    have hup := updateByID_ok t req w locked trx s0 s1 s2 s3 c hb hl hu hc
    rw [hcb, hup]
    cases c <;> simp [Event.isUpdate, Event.isStorage]

/-- C4 at a concrete input: the patch handed to the in-memory store for `reqUpdate`. -/
theorem C4_update_patch_witness :
    (memstore.todoList.UpdateByID memstore.reqUpdate memstore.world1).2.trace.filter
        Event.isUpdate
      = [Event.repoUpdate 1 memstore.row1
          { ID := 0, UserID := 0, Title := "Buy milk and eggs", Description := "two litres",
            DoingAt := "2024-05-01", CreatedAt := 0, UpdatedAt := 202 }] :=
  (C4_update_patch memstore.todoList memstore.reqUpdate memstore.world1 memstore.row1 1
    { memstore.store1 with snapshot := some memstore.store1.rows, clock := 201 }
    { memstore.store1 with snapshot := some memstore.store1.rows, clock := 202 }
    rfl rfl).2.2.1

/-- C10: replacing the `UserID` of an update request by any other value changes neither
what `UpdateByID` returns, nor the state it leaves the store in, nor the repository calls
and transaction boundaries it makes (the same `LockByID` and `Update` calls with the same
arguments): the requester's id is only ever written to the log context. -/
theorem C10_user_id_not_consulted (t : TodoList σ) (req : entity.TodoListReq) (uid : Int)
    (w : World σ) :
    (t.UpdateByID { req with UserID := uid } w).1 = (t.UpdateByID req w).1 ∧
    (t.UpdateByID { req with UserID := uid } w).2.store = (t.UpdateByID req w).2.store ∧
    (t.UpdateByID { req with UserID := uid } w).2.trace.filter Event.isStorage
      = (t.UpdateByID req w).2.trace.filter Event.isStorage := by
  rcases hb : t.todoListRepo.Begin w.store with ⟨trx, s0⟩
  rcases hl : t.todoListRepo.LockByID trx req.ID s0 with ⟨l, s1⟩
  cases l with
  | error e =>
    rw [updateByID_lock_error t req w e trx s0 s1 hb hl,
      updateByID_lock_error t { req with UserID := uid } w e trx s0 s1 hb hl]
    simp [Event.isStorage]
  | ok locked =>
    rcases hu : t.todoListRepo.Update trx locked (TodoList.updatePatch req (t.timeNow s1)) s1
      with ⟨u, s2⟩
    cases u with
    | some e =>
      rw [updateByID_update_error t req w locked e trx s0 s1 s2 hb hl hu,
        updateByID_update_error t { req with UserID := uid } w locked e trx s0 s1 s2 hb hl hu]
      simp [Event.isStorage, TodoList.updatePatch]
    | none =>
      rcases hc : t.todoListRepo.Commit trx s2 with ⟨c, s3⟩
      rw [updateByID_ok t req w locked trx s0 s1 s2 s3 c hb hl hu hc,
        updateByID_ok t { req with UserID := uid } w locked trx s0 s1 s2 s3 c hb hl hu hc]
      cases c <;> simp [Event.isStorage, TodoList.updatePatch]

/-- C8, as stated, fails: `Create` on a request that fails validation returns a non-nil
error and no `helper.LogError` call has been made. -/
theorem C8_validation_exit_not_logged :
    memstore.todoList.ValidateStruct memstore.reqNoOwner ≠ "" ∧
    (memstore.todoList.Create memstore.reqNoOwner memstore.world1).1.2 ≠ none ∧
    (memstore.todoList.Create memstore.reqNoOwner memstore.world1).2.trace.any Event.isLog
      = false := by
  decide

/-- C8, amended: whenever `GetByUserID`, `GetByID`, `DeleteByID`, `UpdateByID`, or `Create`
on a request that passed validation returns a non-nil error `e`, the last call it made is
`helper.LogError` with its own operation name, the error `e` and its captured context
fields; `Create` on a request that fails validation returns its error with no call made. -/
theorem C8_repository_errors_are_logged (t : TodoList σ) (w : World σ) :
    (∀ userID e, (t.GetByUserID userID w).1.2 = some e →
      (t.GetByUserID userID w).2.trace = w.trace ++ [Event.repoGetByUserID userID,
        Event.logError "todoListRepo.GetByUserID" "TodoListUsecase.GetByUserID" e
          [("user_id", .int64 userID)] ""]) ∧
    (∀ id e, (t.GetByID id w).1.2 = some e →
      (t.GetByID id w).2.trace = w.trace ++ [Event.repoGetByID id,
        Event.logError "todoListRepo.GetByID" "TodoListUsecase.GetByID" e
          [("user_id", .int64 id)] ""]) ∧
    (∀ req e, t.ValidateStruct req = "" → (t.Create req w).1.2 = some e →
      (t.Create req w).2.trace = w.trace ++ [Event.repoCreate none (t.createPayload req w) false,
        Event.logError "todoListRepo.Create" "TodoListUsecase.Create" e
          [("user_id", .int64 req.UserID), ("payload", .payload req)] ""]) ∧
    (∀ req e, (t.UpdateByID req w).1 = some e →
      ∃ pre, (t.UpdateByID req w).2.trace = w.trace ++ pre ++
        [Event.logError "todoListRepo.DBTransaction" "TodoListUsecase.UpdateByID" e
          [("user_id", .int64 req.UserID), ("payload", .payload req)] ""]) ∧
    (∀ id e, (t.DeleteByID id w).1 = some e →
      (t.DeleteByID id w).2.trace = w.trace ++ [Event.repoDeleteByID none id,
        Event.logError "todoListRepo.DeleteByID" "TodoListUsecase.DeleteByID" e
          [("todo_list_id", .int64 id)] ""]) ∧
    (∀ req, t.ValidateStruct req ≠ "" →
      (t.Create req w).1.2 ≠ none ∧ (t.Create req w).2 = w) := by
  refine ⟨?_, ?_, ?_, ?_, ?_, ?_⟩
  · intro userID e
    rcases h : t.todoListRepo.GetByUserID userID w.store with ⟨r, s1⟩
    cases r <;> simp [TodoList.GetByUserID, helper.LogError, h]
  · intro id e
    rcases h : t.todoListRepo.GetByID id w.store with ⟨r, s1⟩
    cases r <;> simp [TodoList.GetByID, helper.LogError, h]
  · intro req e hv
    rcases h : t.todoListRepo.Create none (t.createPayload req w) false w.store with ⟨r, s1⟩
    cases r <;> simp [TodoList.Create, helper.LogError, hv, h]
  · intro req e
    rcases hb : t.todoListRepo.Begin w.store with ⟨trx, s0⟩
    rcases hl : t.todoListRepo.LockByID trx req.ID s0 with ⟨l, s1⟩
    cases l with
    | error e1 =>
      rw [updateByID_lock_error t req w e1 trx s0 s1 hb hl]
      intro he
      simp only [Option.some.injEq] at he
      subst he
      exact ⟨[Event.trxBegin trx, Event.repoLockByID trx req.ID,
        Event.logError "todoListRepo.LockByID" "TodoListUsecase.UpdateByID" e1
          [("user_id", .int64 req.UserID), ("payload", .payload req)] "",
        Event.trxRollback trx], by simp⟩
    | ok locked =>
      rcases hu : t.todoListRepo.Update trx locked (TodoList.updatePatch req (t.timeNow s1)) s1
        with ⟨u, s2⟩
      cases u with
      | some e1 =>
        rw [updateByID_update_error t req w locked e1 trx s0 s1 s2 hb hl hu]
        intro he
        simp only [Option.some.injEq] at he
        subst he
        exact ⟨[Event.trxBegin trx, Event.repoLockByID trx req.ID,
          Event.repoUpdate trx locked (TodoList.updatePatch req (t.timeNow s1)),
          Event.logError "todoListRepo.Update" "TodoListUsecase.UpdateByID" e1
            [("user_id", .int64 req.UserID), ("payload", .payload req)] "",
          Event.trxRollback trx], by simp⟩
      | none =>
        rcases hc : t.todoListRepo.Commit trx s2 with ⟨c, s3⟩
        rw [updateByID_ok t req w locked trx s0 s1 s2 s3 c hb hl hu hc]
        intro he
        simp only at he
        subst he
        exact ⟨[Event.trxBegin trx, Event.repoLockByID trx req.ID,
          Event.repoUpdate trx locked (TodoList.updatePatch req (t.timeNow s1)),
          Event.trxCommit trx], by simp⟩
  · intro id e
    rcases h : t.todoListRepo.DeleteByID none id w.store with ⟨r, s1⟩
    cases r <;> simp [TodoList.DeleteByID, helper.LogError, h]
  · intro req hv
    simp [TodoList.Create, hv]

/-- C8 (amended) at concrete inputs: reading the missing id 9 over the in-memory store is
logged by `GetByID`; a create request without an owner returns with nothing traced. -/
theorem C8_repository_errors_are_logged_witness :
    (memstore.todoList.GetByID 9 memstore.world1).2.trace = [Event.repoGetByID 9,
      Event.logError "todoListRepo.GetByID" "TodoListUsecase.GetByID" memstore.NotFoundError
        [("user_id", .int64 9)] ""] ∧
    (memstore.todoList.Create memstore.reqNoOwner memstore.world1).2.trace = [] :=
  have h := C8_repository_errors_are_logged memstore.todoList memstore.world1
  ⟨h.2.1 9 memstore.NotFoundError (by decide),
   congrArg World.trace (h.2.2.2.2.2 memstore.reqNoOwner (by decide)).2⟩

/-- C2 at its failing input: `UpdateByID` never consults `ValidateStruct` (replacing the
validator changes nothing), so for a request the validator rejects it still opens a
transaction, locks the row, calls `Update`, commits, returns a nil error, and the stored
title is overwritten by the empty one. -/
theorem C2_update_skips_validation :
    memstore.todoList.ValidateStruct memstore.reqBlankTitle = "title is required" ∧
    (∀ v : entity.TodoListReq → String,
      ({ memstore.todoList with ValidateStruct := v } : TodoList memstore.MemStore).UpdateByID
          memstore.reqBlankTitle memstore.world1
        = memstore.todoList.UpdateByID memstore.reqBlankTitle memstore.world1) ∧
    (memstore.todoList.UpdateByID memstore.reqBlankTitle memstore.world1).1 = none ∧
    (memstore.todoList.UpdateByID memstore.reqBlankTitle memstore.world1).2.trace =
      [Event.trxBegin 1, Event.repoLockByID 1 1,
       Event.repoUpdate 1 memstore.row1
         { ID := 0, UserID := 0, Title := "", Description := "", DoingAt := "",
           CreatedAt := 0, UpdatedAt := 202 },
       Event.trxCommit 1] ∧
    (memstore.todoList.UpdateByID memstore.reqBlankTitle memstore.world1).2.store.rows.map
      (fun r => r.Title) = ["", "Pay rent"] := by
  refine ⟨by decide, fun v => rfl, by decide, by decide, by decide⟩

/-- C5 at its failing input: a valid update of id 1 that sets the schedule "2024-05-01"
succeeds and the store holds the new schedule, yet the `GetByID` that follows returns the
new title and description with an empty `DoingAt`, because the response of `GetByID` is
built from `ID`, `Title` and `Description` only. -/
theorem C5_get_by_id_drops_schedule :
    memstore.todoList.ValidateStruct memstore.reqUpdate = "" ∧
    (memstore.todoList.UpdateByID memstore.reqUpdate memstore.world1).1 = none ∧
    (memstore.todoList.UpdateByID memstore.reqUpdate memstore.world1).2.store.rows.map
      (fun r => (r.ID, r.DoingAt)) = [(1, "2024-05-01"), (2, "")] ∧
    (memstore.todoList.GetByID 1
        (memstore.todoList.UpdateByID memstore.reqUpdate memstore.world1).2).1
      = (some { ID := 1, Title := "Buy milk and eggs", Description := "two litres",
                DoingAt := "", CreatedAt := 0 }, none) ∧
    (∀ (t : TodoList memstore.MemStore) (id : Int) (w : World memstore.MemStore)
        (resp : entity.TodoListResponse),
      (t.GetByID id w).1.1 = some resp → resp.DoingAt = "" ∧ resp.CreatedAt = 0) := by
  refine ⟨by decide, by decide, by decide, by decide, ?_⟩
  intro t id w resp
  rcases h : t.todoListRepo.GetByID id w.store with ⟨r, s1⟩
  cases r with
  | error e => simp [TodoList.GetByID, h]
  | ok data =>
    simp only [TodoList.GetByID, h]
    intro he
    simp only [Option.some.injEq] at he
    subst he
    exact ⟨rfl, rfl⟩

end GoSkeleton
